import Mathlib

/- Verification development for the Inkbird IDT-34c-B supervisor.

   The subject programs are two Python variants of the same supervisor,
   `shock.py` and `deadlock.py` (plus a minimal spike `min.py`).  This file
   gives a shallow embedding of the state and the pure transition functions
   of the components the specification talks about: the payload decoder, the
   sample register with its redundancy filter, the slot allocator, device
   teardown, the retry/backoff machinery and the logger tick.  Definitions
   follow the Python source line by line; machine floats are modelled as
   exact rationals together with an explicit NaN constructor whose
   comparison semantics (every comparison with NaN is false, NaN propagates
   through arithmetic) matches the Python operations actually used. -/

/-- An exact rational value kept as an unreduced fraction `num / den`.  The
operations below maintain a positive denominator, and all comparisons go
through cross-multiplication, so a `Frac` denotes the rational number
`num / den` exactly; keeping fractions unreduced avoids gcd normalisation,
which Lean's `ℚ` performs with irreducible definitions. -/
structure Frac where
  num : ℤ
  den : ℕ
deriving DecidableEq

/-- The rational number a fraction denotes. -/
def Frac.toRat (a : Frac) : ℚ := (a.num : ℚ) / (a.den : ℚ)

/-- Model of a Python float as used by the sample register: either NaN or an
exact rational value.  The registers are initialised with NaN
(`thermostamp=[float('NaN')]*24`). -/
inductive F where
  | nan : F
  | val : Frac → F
deriving DecidableEq

/-- Python `==` on floats: NaN compares unequal to everything, including
itself; equality of values is equality of the denoted rationals. -/
def F.beq : F → F → Bool
  | F.val a, F.val b => decide (a.num * b.den = b.num * a.den)
  | _, _ => false

/-- Python `<` on floats: false whenever either operand is NaN. -/
def F.ltb : F → F → Bool
  | F.val a, F.val b => decide (a.num * b.den < b.num * a.den)
  | _, _ => false

/-- Python `>` on floats. -/
def F.gtb (x y : F) : Bool := F.ltb y x

/-- Float addition, NaN propagating. -/
def F.add : F → F → F
  | F.val a, F.val b => F.val ⟨a.num * b.den + b.num * a.den, a.den * b.den⟩
  | _, _ => F.nan

/-- Division by two, NaN propagating. -/
def F.half : F → F
  | F.val a => F.val ⟨a.num, a.den * 2⟩
  | F.nan => F.nan

/-- The test `abs(value - vlast) > 1.5` exactly as Python evaluates it: when
either operand is NaN the comparison is false; on values it is
`|x - y| > 3/2` by cross-multiplication. -/
def F.jump : F → F → Bool
  | F.val a, F.val b =>
      decide (|a.num * b.den - b.num * a.den| * 2 > 3 * (a.den * b.den))
  | _, _ => false

/-- Sentinel cap `MAXTEMP = 1802.5` from both sources. -/
def MAXTEMP : ℚ := 3605 / 2

/-- MAXTEMP as a register float, the fraction `3605 / 2`. -/
def maxtempF : F := F.val ⟨3605, 2⟩

/-- Redundancy tolerance `MAXWAIT = 20` from both sources. -/
def MAXWAIT : ℕ := 20

/-- Initial retry backoff, `INITIAL_BACKOFF = 2.0` in deadlock.py. -/
def INITIAL_BACKOFF : ℚ := 2

/-- Backoff cap, `MAX_BACKOFF = 16.0` in deadlock.py. -/
def MAX_BACKOFF : ℚ := 16

/-- Decoder from `temperature(lsbyte, msbyte)` in shock.py (lines 171-173)
and deadlock.py (lines 146-148):
`value = ((msbyte^0x80)<<8)+lsbyte - 0x8000; return (value-320)/18`. -/
def temperature (lsbyte msbyte : ℕ) : ℚ :=
  (((((msbyte ^^^ 0x80) <<< 8) + lsbyte : ℕ) : ℤ) - 0x8000 - 320) / 18

/-- The same decoder producing a register fraction:
`(value - 320) / 18` with `value = ((msbyte^0x80)<<8)+lsbyte - 0x8000`. -/
def temperatureF (lsbyte msbyte : ℕ) : Frac :=
  ⟨((((msbyte ^^^ 0x80) <<< 8) + lsbyte : ℕ) : ℤ) - 0x8000 - 320, 18⟩

/-- The decoder formula as the specification writes it, with a bitwise or
between the shifted high byte and the low byte. -/
def specTemperature (lo hi : ℕ) : ℚ :=
  (((((hi ^^^ 0x80) <<< 8) ||| lo : ℕ) : ℤ) - 0x8000 - 320) / 18

/-- Device object paths are opaque strings. -/
abbrev DPath : Type := String

/-- Keys of the `free_offsets` dictionary.  It starts as
`{0:0, 4:4, 8:8, 12:12, 16:16, 20:20}` (integer keys) but `deallocate`
re-inserts entries under the device-path string, so its key type is the sum
of both. -/
inductive PKey where
  | ofs : ℕ → PKey
  | path : DPath → PKey
deriving DecidableEq

/-- Lookup in a Python dictionary modelled as an association list. -/
def lookupA {κ ν : Type} [DecidableEq κ] : List (κ × ν) → κ → Option ν
  | [], _ => none
  | (k, w) :: t, q => if k = q then some w else lookupA t q

/-- Python `d[q] = v`: update the value in place if the key is present,
append otherwise. -/
def insertA {κ ν : Type} [DecidableEq κ] : List (κ × ν) → κ → ν → List (κ × ν)
  | [], q, v => [(q, v)]
  | (k, w) :: t, q, v => if k = q then (q, v) :: t else (k, w) :: insertA t q v

/-- Python `del d[q]` / `d.pop(q, None)`: remove the entry with the key. -/
def eraseA {κ ν : Type} [DecidableEq κ] (l : List (κ × ν)) (q : κ) : List (κ × ν) :=
  l.filter (fun e => decide (e.1 ≠ q))

/-- The linear-scan minimum loop of `allocate`:
`offset = 1e9; best = None; for key in free_offsets: if offset > free_offsets[key]: best,offset = key,free_offsets[key]`. -/
def scanMinAux {κ : Type} : List (κ × ℕ) → Option κ × ℕ → Option κ × ℕ
  | [], acc => acc
  | (k, v) :: t, (best, off) =>
      scanMinAux t (if off > v then (some k, v) else (best, off))

/-- Scan of the whole dictionary starting from `(None, 1e9)`. -/
def scanMin {κ : Type} (l : List (κ × ℕ)) : Option κ × ℕ :=
  scanMinAux l (none, 10 ^ 9)

/-- State of the slot allocator: the `allocated_offsets` and `free_offsets`
dictionaries. -/
structure AllocState where
  allocated : List (DPath × ℕ)
  free : List (PKey × ℕ)
deriving DecidableEq

/-- Initial allocator state from both sources:
`allocated_offsets={}` and `free_offsets={0:0,4:4,8:8,12:12,16:16,20:20}`. -/
def initAlloc : AllocState :=
  ⟨[], [(PKey.ofs 0, 0), (PKey.ofs 4, 4), (PKey.ofs 8, 8),
        (PKey.ofs 12, 12), (PKey.ofs 16, 16), (PKey.ofs 20, 20)]⟩

/-- State effect of `allocate(obj_path)`, identical in shock.py (lines
90-100) and deadlock.py (lines 100-111): reuse the offset remembered under
the path's own key if present, otherwise take the key with the smallest
offset found by the linear scan; when the scan finds nothing (`best` stays
`None`) the path is recorded with the untouched initial `offset = 1e9` and
no key is deleted (shock.py additionally raises `KeyError` on
`del free_offsets[None]`, see `allocRaises`). -/
def allocState (p : DPath) (s : AllocState) : AllocState :=
  match lookupA s.free (PKey.path p) with
  | some off => ⟨insertA s.allocated p off, eraseA s.free (PKey.path p)⟩
  | none =>
      match scanMin s.free with
      | (some k, off) => ⟨insertA s.allocated p off, eraseA s.free k⟩
      | (none, off) => ⟨insertA s.allocated p off, s.free⟩

/-- Whether shock.py's `allocate` raises `KeyError`: it executes
`del free_offsets[best]` unconditionally, which fails exactly when the scan
left `best = None`; the assignment `allocated_offsets[obj_path] = offset`
has already happened at that point. -/
def allocRaises (p : DPath) (s : AllocState) : Bool :=
  match lookupA s.free (PKey.path p) with
  | some _ => false
  | none =>
      match scanMin s.free with
      | (some _, _) => false
      | (none, _) => true

/-- `deallocate(obj_path)` from shock.py (lines 85-88) and deadlock.py
(lines 95-98): move the allocated offset back into `free_offsets` under the
device-path key; no-op when the path holds no slot. -/
def deallocate (p : DPath) (s : AllocState) : AllocState :=
  match lookupA s.allocated p with
  | some off => ⟨eraseA s.allocated p, insertA s.free (PKey.path p) off⟩
  | none => s

/-- The sample register: the three parallel arrays and the global stamp
flag. -/
structure Reg where
  thermostamp : List F
  thermofilter : List F
  thermocount : List ℕ
  stamp : Bool
deriving DecidableEq

/-- Initial register state from both sources:
`thermostamp=[float('NaN')]*24; thermofilter=[0.]*24; thermocount=[0]*24;
stamp = False`. -/
def initReg : Reg :=
  ⟨List.replicate 24 F.nan, List.replicate 24 (F.val ⟨0, 1⟩),
   List.replicate 24 0, false⟩

/-- Loop body of `update_temperatures` in shock.py (lines 179-196) for one
channel `c` carrying the new value `v`.  Note that the large-jump branch
ends in `continue`, skipping the `thermocount`/`stamp` update. -/
def stepChanS (c : ℕ) (v : F) (r : Reg) : Reg :=
  let vlast := r.thermostamp.getD c F.nan
  let n := r.thermocount.getD c 0
  if n ≠ 0 ∧ n < MAXWAIT ∧
      (F.beq v vlast || F.beq v (r.thermofilter.getD c F.nan)) = true then r
  else if F.jump v vlast = true then
    let nv := if (F.gtb v maxtempF || F.gtb vlast maxtempF) = true then v
              else F.half (F.add v vlast)
    { r with thermostamp := r.thermostamp.set c nv,
             thermofilter := r.thermofilter.set c nv }
  else
    let r1 := { r with thermofilter := r.thermofilter.set c vlast,
                       thermostamp := r.thermostamp.set c v }
    if r.stamp then r1
    else { r1 with thermocount := r1.thermocount.set c 0, stamp := true }

/-- Loop body of `update_temperatures` in deadlock.py (lines 156-165) for
one channel: no MAXTEMP guard, the filter always follows the new stored
value, and the count/stamp update runs on both acceptance branches. -/
def stepChanD (c : ℕ) (v : F) (r : Reg) : Reg :=
  let vlast := r.thermostamp.getD c F.nan
  let n := r.thermocount.getD c 0
  if n ≠ 0 ∧ n < MAXWAIT ∧
      (F.beq v vlast || F.beq v (r.thermofilter.getD c F.nan)) = true then r
  else
    let nv := if F.jump v vlast = true then F.half (F.add v vlast) else v
    let r1 := { r with thermostamp := r.thermostamp.set c nv,
                       thermofilter := r.thermofilter.set c nv }
    if r.stamp then r1
    else { r1 with thermocount := r1.thermocount.set c 0, stamp := true }

/-- The four decoded channel values
`t4vec = [temperature(*data[2*i:2*i+2]) for i in range(4)]`. -/
def decode4 (data : List ℕ) : List F :=
  (List.range 4).map (fun i =>
    F.val (temperatureF (data.getD (2 * i) 0) (data.getD (2 * i + 1) 0)))

/-- Apply a per-channel step to channels `off + i` for the successive values
of `t4vec`. -/
def foldChans (step : ℕ → F → Reg → Reg) (off : ℕ) : List F → ℕ → Reg → Reg
  | [], _, r => r
  | v :: vs, i, r => foldChans step off vs (i + 1) (step (off + i) v r)

/-- The sentinel trailer `FE 7F FE 7F`. -/
def sentinel : List ℕ := [0xFE, 0x7F, 0xFE, 0x7F]

/-- `update_temperatures` from shock.py (lines 169-196).  The packet check
is `data[8:12] != [0xFE,0x7F,0xFE,0x7F]` (a Python slice, so a short
payload yields a short slice and is rejected too); on a valid packet the
offset lookup `allocated_offsets[obj_path]` may raise `KeyError`, modelled
as `none`. -/
def update_temperaturesS (al : List (DPath × ℕ)) (p : DPath) (data : List ℕ)
    (r : Reg) : Option Reg :=
  if (data.drop 8).take 4 = sentinel then
    match lookupA al p with
    | none => none
    | some off => some (foldChans stepChanS off (decode4 data) 0 r)
  else some r

/-- `update_temperatures` from deadlock.py (lines 150-165), whose guard is
`len(data) < 12 or data[8:12] != [0xFE,0x7F,0xFE,0x7F]`. -/
def update_temperaturesD (al : List (DPath × ℕ)) (p : DPath) (data : List ℕ)
    (r : Reg) : Option Reg :=
  if data.length < 12 ∨ ¬(data.drop 8).take 4 = sentinel then some r
  else
    match lookupA al p with
    | none => none
    | some off => some (foldChans stepChanD off (decode4 data) 0 r)

/-- Count bump of one channel in shock.py's logger (lines 377-379):
`thermocount[i] = n+1 if n<MAXWAIT else 0`. -/
def loggerCountS (n : ℕ) : ℕ := if n < MAXWAIT then n + 1 else 0

/-- Count bump of one channel in deadlock.py's logger (line 266):
`thermocount[i] = min(thermocount[i]+1, MAXWAIT)`. -/
def loggerCountD (n : ℕ) : ℕ := min (n + 1) MAXWAIT

/-- Register effect of one `logger()` tick in shock.py: when `stamp` is set,
clear it and bump every channel count; the returned flag records whether a
line was emitted.  The stall-recovery branch only issues a bus `ReadValue`
and touches `laststamp`, not the register. -/
def loggerS (r : Reg) : Reg × Bool :=
  if r.stamp then
    ({ r with stamp := false, thermocount := r.thermocount.map loggerCountS }, true)
  else (r, false)

/-- Register effect of one `logger()` tick in deadlock.py. -/
def loggerD (r : Reg) : Reg × Bool :=
  if r.stamp then
    ({ r with stamp := false, thermocount := r.thermocount.map loggerCountD }, true)
  else (r, false)

/-- Constant payload for the redundancy scenario: the four channels carry
the byte pair `3C 81` followed by the sentinel trailer. -/
def constData : List ℕ :=
  [0x3C, 0x81, 0x3C, 0x81, 0x3C, 0x81, 0x3C, 0x81, 0xFE, 0x7F, 0xFE, 0x7F]

/-- Allocation used by the redundancy scenario: one device holding offset
0. -/
def alloc0 : List (DPath × ℕ) := [("d1", 0)]

/-- One logger cycle of the scenario in shock.py: one register update with
the constant payload followed by one logger tick; the Boolean records
whether the tick emitted a line (i.e. whether `stamp` was set during the
cycle). -/
def cycleS (r : Reg) : Reg × Bool :=
  loggerS ((update_temperaturesS alloc0 "d1" constData r).getD r)

/-- One logger cycle of the scenario in deadlock.py. -/
def cycleD (r : Reg) : Reg × Bool :=
  loggerD ((update_temperaturesD alloc0 "d1" constData r).getD r)

/-- Run `n` scenario cycles in shock.py, collecting for each cycle whether
`stamp` was set. -/
def runCyclesS : ℕ → Reg → List Bool
  | 0, _ => []
  | n + 1, r =>
      let p := cycleS r
      p.2 :: runCyclesS n p.1

/-- Run `n` scenario cycles in deadlock.py. -/
def runCyclesD : ℕ → Reg → List Bool
  | 0, _ => []
  | n + 1, r =>
      let p := cycleD r
      p.2 :: runCyclesD n p.1

/-- Shared mutable maps of shock.py touched by `teardown_device`:
`inkbirds`, `temperatures`, `commands`, `batteries` (proxy dictionaries,
modelled by their key sets), the `bind` queues (modelled by queue lengths)
and the allocator. -/
structure SysShock where
  inkbirds : List (DPath × Unit)
  temperatures : List (DPath × Unit)
  commands : List (DPath × Unit)
  batteries : List (DPath × Unit)
  bindq : List (DPath × ℕ)
  alloc : AllocState
deriving DecidableEq

/-- `teardown_device` from shock.py (lines 102-137): stop notifications and
disconnect (external bus calls, errors swallowed), pop the path from every
proxy dictionary, drop its bind queue, deallocate its slot, and ask the
adapter to remove the device (external). -/
def teardownShock (p : DPath) (s : SysShock) : SysShock :=
  { inkbirds := eraseA s.inkbirds p,
    temperatures := eraseA s.temperatures p,
    commands := eraseA s.commands p,
    batteries := eraseA s.batteries p,
    bindq := eraseA s.bindq p,
    alloc := deallocate p s.alloc }

/-- Device states of deadlock.py's `DeviceState` enum. -/
inductive DState where
  | disconnected
  | connecting
  | connected
  | pseudoPairing
  | active
  | teardown
deriving DecidableEq

/-- Per-device record of deadlock.py's `InkbirdDevice`: current state, the
monotonic backoff and the pending retry timer (modelled by the delay it was
armed with). -/
structure Device where
  state : DState
  retry_backoff : ℚ
  pending : Option ℚ
deriving DecidableEq

/-- `InkbirdDevice.schedule_retry` (deadlock.py lines 78-85): cancel any
prior timer, arm a single-shot timer after `min(retry_backoff, MAX_BACKOFF)`
seconds, then double the backoff. -/
def schedule_retry (d : Device) : Device :=
  { d with pending := some (min d.retry_backoff MAX_BACKOFF),
           retry_backoff := d.retry_backoff * 2 }

/-- `InkbirdDevice.cancel_retry` (deadlock.py lines 87-92). -/
def cancel_retry (d : Device) : Device :=
  { d with pending := none, retry_backoff := INITIAL_BACKOFF }

/-- The connect attempt of `interface_added_callback` (deadlock.py lines
239-246): from `DISCONNECTED`, transition to `CONNECTING`, call `Connect()`
and on success move to `CONNECTED`; on a transport error transition back to
`DISCONNECTED`.  No retry is scheduled on either branch. -/
def connectStep (fails : Bool) (d : Device) : Device :=
  if d.state = DState.disconnected then
    if fails then { d with state := DState.disconnected }
    else { d with state := DState.connected }
  else d

/-- `run_pseudo_pairing` (deadlock.py lines 187-204): guarded by
`can_act(CONNECTED)`; on success transition to `ACTIVE` and reset the
backoff to `INITIAL_BACKOFF`; on a transport error call `schedule_retry`.
The second component reports the delay of the retry scheduled by this step,
if any. -/
def pseudoPairStepE (fails : Bool) (d : Device) : Device × Option ℚ :=
  if d.state = DState.connected then
    if fails then (schedule_retry d, some (min d.retry_backoff MAX_BACKOFF))
    else ({ d with state := DState.active, retry_backoff := INITIAL_BACKOFF }, none)
  else (d, none)

/-- Drive a sequence of pseudo-pairing attempts (each Boolean telling
whether the bus raises), collecting the scheduled retry delays in order. -/
def ppRun : List Bool → Device → Device × List ℚ
  | [], d => (d, [])
  | f :: fs, d =>
      let s := pseudoPairStepE f d
      let rest := ppRun fs s.1
      (rest.1, s.2.toList ++ rest.2)

/-- A device that has just connected successfully: state `CONNECTED`,
backoff still at its initial value, no pending timer. -/
def dConn : Device := ⟨DState.connected, INITIAL_BACKOFF, none⟩

/-- Shared mutable maps of deadlock.py touched by `teardown_device`: the
`inkbirds` record map, the three proxy dictionaries, the bind queues and
the allocator. -/
structure SysDead where
  inkbirds : List (DPath × Device)
  temperatures : List (DPath × Unit)
  commands : List (DPath × Unit)
  batteries : List (DPath × Unit)
  bindq : List (DPath × ℕ)
  alloc : AllocState
deriving DecidableEq

/-- `teardown_device` from deadlock.py (lines 114-143): return immediately
when the path holds no record; otherwise stop notifications and disconnect
(external), pop the path from the proxy dictionaries, drop its bind queue,
deallocate, remove the device from the adapter (external) and delete the
record. -/
def teardownDead (p : DPath) (s : SysDead) : SysDead :=
  match lookupA s.inkbirds p with
  | none => s
  | some _ =>
      { inkbirds := eraseA s.inkbirds p,
        temperatures := eraseA s.temperatures p,
        commands := eraseA s.commands p,
        batteries := eraseA s.batteries p,
        bindq := eraseA s.bindq p,
        alloc := deallocate p s.alloc }

/-- `temperature_callback` from shock.py (lines 198-208).  `hasValue` is
whether the property-change carries a `Value`, `connected` the value of
`inkbirds[obj_path].Connected`.  When the device holds no slot yet, the
callback allocates (or logs, when disconnected) and returns before decoding;
`none` models an uncaught `KeyError` (from `allocate` on an exhausted free
list, or from the offset lookup inside `update_temperatures`). -/
def temperature_callbackS (hasValue connected : Bool) (p : DPath)
    (data : List ℕ) (al : AllocState) (r : Reg) : Option (AllocState × Reg) :=
  if hasValue then
    if lookupA al.allocated p = none then
      if connected then
        if allocRaises p al then none else some (allocState p al, r)
      else some (al, r)
    else
      match update_temperaturesS al.allocated p data r with
      | none => none
      | some r' => some (al, r')
  else some (al, r)

/-- The six legal offsets. -/
def offsList : List ℕ := [0, 4, 8, 12, 16, 20]

/-- Decidable check of the allocator invariant claimed by the spec: offsets
of `allocated` and `free` partition `{0,4,8,12,16,20}` and at most six
slots are allocated. -/
def claimInvB (s : AllocState) : Bool :=
  let a := s.allocated.map Prod.snd
  let f := s.free.map Prod.snd
  offsList.all (fun x => a.contains x || f.contains x) &&
  a.all (fun x => offsList.contains x && !f.contains x) &&
  f.all (fun x => offsList.contains x) &&
  decide (s.allocated.length ≤ 6)

/-- Allocator states reachable from the initial state when `allocate` is
only invoked while `free_offsets` is nonempty and for a path that holds no
slot (the discipline `temperature_callback` and the admission check of
`interface_added_callback` are meant to enforce), while `deallocate` may be
invoked at any time. -/
inductive ReachG : AllocState → Prop where
  | init : ReachG initAlloc
  | alloc {s : AllocState} {p : DPath} : ReachG s → s.free ≠ [] →
      lookupA s.allocated p = none → ReachG (allocState p s)
  | dealloc {s : AllocState} (p : DPath) : ReachG s → ReachG (deallocate p s)

/-- Strengthened inductive invariant of the allocator: keys on both sides
are distinct, no allocated path is simultaneously remembered in `free`, and
the offsets on the two sides are jointly a permutation of the six slots. -/
def JInv (s : AllocState) : Prop :=
  (s.allocated.map Prod.fst).Nodup ∧
  (s.free.map Prod.fst).Nodup ∧
  (∀ p ∈ s.allocated.map Prod.fst, PKey.path p ∉ s.free.map Prod.fst) ∧
  (s.allocated.map Prod.snd ++ s.free.map Prod.snd).Perm offsList

/-- Bound on the channel counters. -/
def CountOk (r : Reg) : Prop := ∀ n ∈ r.thermocount, n ≤ MAXWAIT

/-- Allocator state after six distinct devices have taken all six slots. -/
def sixAlloc : AllocState :=
  allocState "d6" (allocState "d5" (allocState "d4"
    (allocState "d3" (allocState "d2" (allocState "d1" initAlloc)))))

/-- Fully allocated state used to exercise `allocate` on an empty free
list. -/
def sFull : AllocState :=
  ⟨[("d1", 0), ("d2", 4), ("d3", 8), ("d4", 12), ("d5", 16), ("d6", 20)], []⟩

/-- Register state exhibiting shock.py's count wrap-around in the logger: a
channel whose counter has reached `MAXWAIT` on an emitting cycle. -/
def rCE : Reg :=
  ⟨List.replicate 24 (F.val ⟨0, 1⟩), List.replicate 24 (F.val ⟨0, 1⟩),
   20 :: List.replicate 23 0, true⟩

/-- Register state exhibiting shock.py's large-jump branch: channel 0 holds
value 0, filter 0, count 3, and the stamp flag is clear. -/
def rC1 : Reg :=
  ⟨F.val ⟨0, 1⟩ :: List.replicate 23 F.nan,
   F.val ⟨0, 1⟩ :: List.replicate 23 (F.val ⟨0, 1⟩),
   3 :: List.replicate 23 0, false⟩

/- ------------------------------------------------------------------ -/
/- Helper lemmas                                                      -/
/- ------------------------------------------------------------------ -/

theorem F.ltb_val {x : F} {m : Frac} (h : F.ltb x (F.val m) = true) :
    ∃ a, x = F.val a ∧ a.num * m.den < m.num * a.den := by
  cases x with
  | nan => simp [F.ltb] at h
  | val a => exact ⟨a, rfl, by simpa [F.ltb] using h⟩

theorem F.gtb_val_false {x : F} {m : Frac} (h : F.ltb x (F.val m) = true) :
    F.gtb x (F.val m) = false := by
  obtain ⟨a, rfl, ha⟩ := F.ltb_val h
  simp only [F.gtb, F.ltb, decide_eq_false_iff_not]
  exact lt_asymm ha

theorem F.jump_val {x y : F} (h : F.jump x y = true) :
    ∃ a b, x = F.val a ∧ y = F.val b ∧
      |a.num * b.den - b.num * a.den| * 2 > 3 * ((a.den : ℤ) * b.den) := by
  cases x with
  | nan => simp [F.jump] at h
  | val a =>
    cases y with
    | nan => simp [F.jump] at h
    | val b => exact ⟨a, b, rfl, rfl, by simpa [F.jump] using h⟩

theorem F.beq_false_of_jump {x y : F} (h : F.jump x y = true) :
    F.beq x y = false := by
  obtain ⟨a, b, rfl, rfl, hab⟩ := F.jump_val h
  have hne : a.num * b.den ≠ b.num * a.den := by
    intro he
    rw [he, sub_self, abs_zero, zero_mul] at hab
    have hge : (0 : ℤ) ≤ 3 * ((a.den : ℤ) * b.den) := by positivity
    exact absurd hab (not_lt.2 hge)
  simp [F.beq, hne]

theorem lookupA_eq_none_iff {κ ν : Type} [DecidableEq κ] (l : List (κ × ν))
    (q : κ) : lookupA l q = none ↔ q ∉ l.map Prod.fst := by
  induction l with
  | nil => simp [lookupA]
  | cons e t ih =>
    obtain ⟨k, w⟩ := e
    by_cases h : k = q <;> simp [lookupA, h, ih, Ne.symm, eq_comm]

theorem mem_keys_eraseA {κ ν : Type} [DecidableEq κ] (l : List (κ × ν))
    (q x : κ) : x ∈ (eraseA l q).map Prod.fst ↔
      x ∈ l.map Prod.fst ∧ x ≠ q := by
  simp only [eraseA, List.mem_map, List.mem_filter, decide_eq_true_eq]
  constructor
  · rintro ⟨e, ⟨he, hne⟩, rfl⟩
    exact ⟨⟨e, he, rfl⟩, hne⟩
  · rintro ⟨⟨e, he, rfl⟩, hne⟩
    exact ⟨e, ⟨he, hne⟩, rfl⟩

theorem eraseA_of_not_mem {κ ν : Type} [DecidableEq κ] {l : List (κ × ν)}
    {q : κ} (h : q ∉ l.map Prod.fst) : eraseA l q = l := by
  refine List.filter_eq_self.2 (fun e he => ?_)
  simp only [decide_eq_true_eq]
  exact fun hq => h (hq ▸ List.mem_map_of_mem Prod.fst he)

theorem lookupA_eraseA_self {κ ν : Type} [DecidableEq κ] (l : List (κ × ν))
    (q : κ) : lookupA (eraseA l q) q = none := by
  rw [lookupA_eq_none_iff, mem_keys_eraseA]
  simp

theorem eraseA_idem {κ ν : Type} [DecidableEq κ] (l : List (κ × ν)) (q : κ) :
    eraseA (eraseA l q) q = eraseA l q := by
  simp only [eraseA]
  exact List.filter_eq_self.2 (fun e he => (List.mem_filter.1 he).2)

theorem insertA_of_lookup_none {κ ν : Type} [DecidableEq κ] {l : List (κ × ν)}
    {q : κ} (h : lookupA l q = none) (v : ν) : insertA l q v = l ++ [(q, v)] := by
  induction l with
  | nil => rfl
  | cons e t ih =>
    obtain ⟨k, w⟩ := e
    simp only [lookupA] at h
    by_cases hk : k = q
    · simp [hk] at h
    · simp only [insertA, if_neg hk, List.cons_append, List.cons.injEq, true_and]
      exact ih (by simpa [hk] using h)

theorem lookupA_insertA_self {κ ν : Type} [DecidableEq κ] (l : List (κ × ν))
    (q : κ) (v : ν) : lookupA (insertA l q v) q = some v := by
  induction l with
  | nil => simp [insertA, lookupA]
  | cons e t ih =>
    obtain ⟨k, w⟩ := e
    by_cases hk : k = q <;> simp [insertA, lookupA, hk, ih]

theorem eraseA_nodup_keys {κ ν : Type} [DecidableEq κ] {l : List (κ × ν)}
    (h : (l.map Prod.fst).Nodup) (q : κ) :
    ((eraseA l q).map Prod.fst).Nodup :=
  ((List.filter_sublist l).map Prod.fst).nodup h

theorem lookupA_of_mem_nodup {κ ν : Type} [DecidableEq κ] {l : List (κ × ν)}
    {k : κ} {v : ν} (hn : (l.map Prod.fst).Nodup) (h : (k, v) ∈ l) :
    lookupA l k = some v := by
  induction l with
  | nil => simp at h
  | cons e t ih =>
    obtain ⟨k0, w0⟩ := e
    simp only [List.map_cons, List.nodup_cons] at hn
    rcases List.mem_cons.1 h with he | ht
    · injection he with h1 h2
      subst h1
      subst h2
      simp [lookupA]
    · have hk : k0 ≠ k := by
        rintro rfl
        exact hn.1 (List.mem_map_of_mem Prod.fst ht)
      simp only [lookupA, if_neg hk]
      exact ih hn.2 ht

theorem perm_values_eraseA {κ ν : Type} [DecidableEq κ] {l : List (κ × ν)}
    {q : κ} {v : ν} (hn : (l.map Prod.fst).Nodup) (h : lookupA l q = some v) :
    (l.map Prod.snd).Perm (v :: (eraseA l q).map Prod.snd) := by
  induction l with
  | nil => simp [lookupA] at h
  | cons e t ih =>
    obtain ⟨k0, w0⟩ := e
    simp only [List.map_cons, List.nodup_cons] at hn
    simp only [lookupA] at h
    by_cases hk : k0 = q
    · rw [if_pos hk] at h
      have hv : w0 = v := by injection h
      subst hv
      subst hk
      have ht : eraseA t k0 = t := eraseA_of_not_mem (by simpa using hn.1)
      have he : eraseA ((k0, w0) :: t) k0 = t := by
        simp [eraseA] at ht ⊢
        exact ht
      rw [he]
      simp
    · rw [if_neg hk] at h
      have hperm := ih hn.2 h
      have he : eraseA ((k0, w0) :: t) q = (k0, w0) :: eraseA t q := by
        simp [eraseA, List.filter_cons, hk]
      rw [he]
      simp only [List.map_cons]
      exact (hperm.cons w0).trans (List.Perm.swap v w0 _)

theorem scanMinAux_le_acc {κ : Type} (l : List (κ × ℕ)) (acc : Option κ × ℕ) :
    (scanMinAux l acc).2 ≤ acc.2 := by
  induction l generalizing acc with
  | nil => exact le_rfl
  | cons e t ih =>
    obtain ⟨k, v⟩ := e
    obtain ⟨best, off⟩ := acc
    simp only [scanMinAux]
    by_cases h : off > v
    · rw [if_pos h]
      exact (ih _).trans h.le
    · rw [if_neg h]
      exact ih _

theorem scanMinAux_le_mem {κ : Type} (l : List (κ × ℕ)) (acc : Option κ × ℕ)
    {e : κ × ℕ} (he : e ∈ l) : (scanMinAux l acc).2 ≤ e.2 := by
  induction l generalizing acc with
  | nil => simp at he
  | cons e0 t ih =>
    obtain ⟨k, v⟩ := e0
    obtain ⟨best, off⟩ := acc
    simp only [scanMinAux]
    rcases List.mem_cons.1 he with rfl | ht
    · by_cases h : off > v
      · rw [if_pos h]
        exact scanMinAux_le_acc t _
      · rw [if_neg h]
        exact (scanMinAux_le_acc t _).trans (not_lt.1 h)
    · by_cases h : off > v <;> [rw [if_pos h]; rw [if_neg h]] <;> exact ih _ ht

theorem scanMinAux_shape {κ : Type} (l : List (κ × ℕ)) (acc : Option κ × ℕ) :
    scanMinAux l acc = acc ∨ ∃ e ∈ l, scanMinAux l acc = (some e.1, e.2) := by
  induction l generalizing acc with
  | nil => exact Or.inl rfl
  | cons e0 t ih =>
    obtain ⟨k, v⟩ := e0
    obtain ⟨best, off⟩ := acc
    simp only [scanMinAux]
    by_cases h : off > v
    · rw [if_pos h]
      rcases ih (some k, v) with h1 | ⟨e, he, h2⟩
      · exact Or.inr ⟨(k, v), List.mem_cons_self _ _, h1⟩
      · exact Or.inr ⟨e, List.mem_cons_of_mem _ he, h2⟩
    · rw [if_neg h]
      rcases ih (best, off) with h1 | ⟨e, he, h2⟩
      · exact Or.inl h1
      · exact Or.inr ⟨e, List.mem_cons_of_mem _ he, h2⟩

theorem scanMin_found {κ : Type} (l : List (κ × ℕ)) {e : κ × ℕ} (he : e ∈ l)
    (hv : e.2 < 10 ^ 9) :
    ∃ e' ∈ l, scanMin l = (some e'.1, e'.2) ∧ ∀ f ∈ l, e'.2 ≤ f.2 := by
  have hle := scanMinAux_le_mem l (none, 10 ^ 9) he
  rcases scanMinAux_shape l (none, 10 ^ 9) with h1 | ⟨e', he', h2⟩
  · rw [h1] at hle
    exact absurd (lt_of_le_of_lt hle hv) (lt_irrefl _)
  · refine ⟨e', he', ?_, fun f hf => ?_⟩
    · simpa [scanMin] using h2
    · have hm := scanMinAux_le_mem l (none, 10 ^ 9) hf
      rw [h2] at hm
      exact hm

theorem shiftLeft_lor_of_lt {a b k : ℕ} (hb : b < 2 ^ k) :
    (a <<< k) ||| b = (a <<< k) + b := by
  induction k generalizing b with
  | zero =>
    obtain rfl : b = 0 := Nat.lt_one_iff.1 (by simpa using hb)
    simp
  | succ k ih =>
    have hd : b.div2 < 2 ^ k := by
      rw [Nat.div2_val]
      have h2 : (2 : ℕ) ^ (k + 1) = 2 ^ k * 2 := by ring
      rw [h2] at hb
      exact Nat.div_lt_of_lt_mul (by omega)
    have h1 : a <<< (k + 1) = 2 * (a <<< k) := by
      rw [Nat.shiftLeft_succ]
    have hb2 : 2 * b.div2 + b.bodd.toNat = b := by
      have hdec := Nat.bit_decomp b
      rw [Nat.bit_val] at hdec
      omega
    calc (a <<< (k + 1)) ||| b
        = Nat.bit false (a <<< k) ||| Nat.bit b.bodd b.div2 := by
          rw [Nat.bit_decomp, h1, Nat.bit_false]
      _ = Nat.bit (false || b.bodd) ((a <<< k) ||| b.div2) := Nat.lor_bit _ _ _ _
      _ = Nat.bit b.bodd ((a <<< k) + b.div2) := by rw [Bool.false_or, ih hd]
      _ = (a <<< (k + 1)) + b := by
          rw [Nat.bit_val, h1]
          omega

/- ------------------------------------------------------------------ -/
/- Claim theorems                                                     -/
/- ------------------------------------------------------------------ -/

/-- C3: for every pair of payload bytes `(lo, hi)` the decoder returns
`((((hi XOR 0x80) << 8) | lo) - 0x8000 - 320) / 18` degrees Celsius, and in
particular the payload bytes `3C 81` decode to `(-32452 - 320)/18`. -/
theorem C3_decoder_formula :
    (∀ lo hi : ℕ, lo < 256 → hi < 256 →
        temperature lo hi = specTemperature lo hi) ∧
    temperature 0x3C 0x81 = (-32772 : ℚ) / 18 := by
  constructor
  · intro lo hi hlo hhi
    unfold temperature specTemperature
    rw [shiftLeft_lor_of_lt (show lo < 2 ^ 8 by omega)]
  · have h1 : ((129 ^^^ 128) <<< 8 : ℕ) = 256 := by decide
    norm_num [temperature, h1]

/-- Witness for C3: the universally quantified part applied to the concrete
payload bytes `3C 81` of the specification's worked example. -/
theorem C3_witness : temperature 0x3C 0x81 = specTemperature 0x3C 0x81 :=
  C3_decoder_formula.1 0x3C 0x81 (by norm_num) (by norm_num)

set_option maxRecDepth 40000 in
/-- C2 (counterexample): feeding the same payload to the device at offset 0
for 25 cycles, starting from the never-observed initial register, sets
`stamp` on cycle 1, but -- contrary to the claim -- not on cycle 21. -/
theorem C2_counterexample :
    (runCyclesS 25 initReg).getD 0 false = true ∧
    (runCyclesS 25 initReg).getD 20 true = false := by decide

set_option maxRecDepth 40000 in
/-- C2 (amended): in both variants the 25-cycle constant-feed scenario sets
the global stamp flag on cycle 1 only; the counters freeze at 1 because the
logger bumps them only on cycles that emit a line, so the `MAXWAIT`
re-stamp never happens. -/
theorem C2_redundancy_scenario :
    runCyclesS 25 initReg = true :: List.replicate 24 false ∧
    runCyclesD 25 initReg = true :: List.replicate 24 false := by decide

/-- C6 (counterexample): shock.py's logger does not clamp, it wraps: on an
emitting cycle with a channel counter at `MAXWAIT` the counter becomes `0`,
not `min(count+1, MAXWAIT) = 20`. -/
theorem C6_counterexample :
    rCE.stamp = true ∧
    (loggerS rCE).1.thermocount.getD 0 99 ≠
      min (rCE.thermocount.getD 0 99 + 1) MAXWAIT := by decide

/-- Counters of one register step stay bounded by `MAXWAIT` in shock.py. -/
theorem countOk_stepChanS (c : ℕ) (v : F) (r : Reg) (h : CountOk r) :
    CountOk (stepChanS c v r) := by
  unfold stepChanS
  dsimp only
  split
  · exact h
  · split
    · exact h
    · split
      · exact h
      · intro n hn
        rcases List.mem_or_eq_of_mem_set hn with h1 | rfl
        · exact h _ h1
        · exact Nat.zero_le _

/-- Counters of one register step stay bounded by `MAXWAIT` in deadlock.py. -/
theorem countOk_stepChanD (c : ℕ) (v : F) (r : Reg) (h : CountOk r) :
    CountOk (stepChanD c v r) := by
  unfold stepChanD
  dsimp only
  split
  · exact h
  · split
    · exact h
    · intro n hn
      rcases List.mem_or_eq_of_mem_set hn with h1 | rfl
      · exact h _ h1
      · exact Nat.zero_le _

/-- Counter bound preservation lifted through the per-packet loop. -/
theorem countOk_foldChans (step : ℕ → F → Reg → Reg)
    (hstep : ∀ c v r, CountOk r → CountOk (step c v r)) (off : ℕ)
    (vs : List F) (i : ℕ) (r : Reg) (h : CountOk r) :
    CountOk (foldChans step off vs i r) := by
  induction vs generalizing i r with
  | nil => exact h
  | cons v vs ih => exact ih (i + 1) _ (hstep _ _ _ h)

/-- C6 (amended): an emitting logger cycle updates every counter to
`min(count+1, MAXWAIT)` in deadlock.py but to `count+1 if count < MAXWAIT
else 0` in shock.py; in both variants `0 ≤ count[c] ≤ MAXWAIT` holds
initially and is preserved by every logger tick and every register
update. -/
theorem C6_logger_counts :
    (∀ r : Reg, r.stamp = true →
        (loggerD r).1.thermocount =
          r.thermocount.map (fun n => min (n + 1) MAXWAIT) ∧
        (loggerS r).1.thermocount =
          r.thermocount.map (fun n => if n < MAXWAIT then n + 1 else 0)) ∧
    (∀ r : Reg, CountOk r → CountOk (loggerS r).1 ∧ CountOk (loggerD r).1) ∧
    (∀ (al : List (DPath × ℕ)) (p : DPath) (data : List ℕ) (r r' : Reg),
        CountOk r → update_temperaturesS al p data r = some r' → CountOk r') ∧
    (∀ (al : List (DPath × ℕ)) (p : DPath) (data : List ℕ) (r r' : Reg),
        CountOk r → update_temperaturesD al p data r = some r' → CountOk r') ∧
    CountOk initReg := by
  refine ⟨fun r hs => ?_, fun r h => ?_, ?_, ?_, ?_⟩
  · constructor
    · unfold loggerD
      rw [if_pos hs]
      rfl
    · unfold loggerS
      rw [if_pos hs]
      rfl
  · constructor
    · unfold loggerS
      split
      · intro n hn
        rcases List.mem_map.1 hn with ⟨m, hm, rfl⟩
        unfold loggerCountS
        split
        · omega
        · exact Nat.zero_le _
      · exact h
    · unfold loggerD
      split
      · intro n hn
        rcases List.mem_map.1 hn with ⟨m, hm, rfl⟩
        exact min_le_right _ _
      · exact h
  · intro al p data r r' h hu
    unfold update_temperaturesS at hu
    split at hu
    · split at hu
      · exact absurd hu (by simp)
      · obtain rfl : foldChans stepChanS _ (decode4 data) 0 r = r' :=
          Option.some.injEq .. ▸ hu
        exact countOk_foldChans stepChanS countOk_stepChanS _ _ _ _ h
    · obtain rfl : r = r' := by injection hu
      exact h
  · intro al p data r r' h hu
    unfold update_temperaturesD at hu
    split at hu
    · obtain rfl : r = r' := by injection hu
      exact h
    · split at hu
      · exact absurd hu (by simp)
      · obtain rfl : foldChans stepChanD _ (decode4 data) 0 r = r' :=
          Option.some.injEq .. ▸ hu
        exact countOk_foldChans stepChanD countOk_stepChanD _ _ _ _ h
  · intro n hn
    rcases List.eq_of_mem_replicate hn with rfl
    exact Nat.zero_le _

/-- Witness for C6: the amended statement applied to the concrete register
of the counterexample state. -/
theorem C6_witness :
    rCE.stamp = true ∧
    (loggerD rCE).1.thermocount =
      rCE.thermocount.map (fun n => min (n + 1) MAXWAIT) :=
  ⟨by decide, (C6_logger_counts.1 rCE (by decide)).1⟩

/-- C9 (counterexample): a transport error during `Connect` schedules no
retry at all -- `interface_added_callback` merely falls back to
`DISCONNECTED` -- so a Connect failure neither arms a timer nor doubles the
backoff, contrary to the claim that every transport error from Connect
through pseudo-pairing schedules one retry. -/
theorem C9_counterexample :
    (connectStep true ⟨DState.disconnected, INITIAL_BACKOFF, none⟩).pending
        = none ∧
    (connectStep true ⟨DState.disconnected, INITIAL_BACKOFF, none⟩).state
        = DState.disconnected ∧
    (connectStep true ⟨DState.disconnected, INITIAL_BACKOFF, none⟩).retry_backoff
        = INITIAL_BACKOFF := by
  refine ⟨rfl, rfl, rfl⟩

/-- C9 (amended): a transport error during the pseudo-pairing step (and only
there) schedules exactly one pending retry after `min(backoff, MAX_BACKOFF)`
seconds, replacing any prior timer and doubling the backoff; a successful
transition to `Active` resets the backoff to `INITIAL_BACKOFF`; three
consecutive pseudo-pairing failures followed by success yield the scheduled
intervals `2 s, 4 s, 8 s` with the backoff back at `2 s`. -/
theorem C9_retry_backoff :
    (∀ d : Device, d.state = DState.connected →
        pseudoPairStepE true d =
          (schedule_retry d, some (min d.retry_backoff MAX_BACKOFF)) ∧
        (schedule_retry d).pending = some (min d.retry_backoff MAX_BACKOFF) ∧
        (schedule_retry d).retry_backoff = d.retry_backoff * 2 ∧
        pseudoPairStepE false d =
          ({ d with state := DState.active,
                    retry_backoff := INITIAL_BACKOFF }, none)) ∧
    ppRun [true, true, true, false] dConn =
      (⟨DState.active, INITIAL_BACKOFF, some 8⟩, [2, 4, 8]) := by
  constructor
  · intro d hd
    refine ⟨?_, rfl, rfl, ?_⟩
    · unfold pseudoPairStepE
      rw [if_pos hd, if_pos rfl]
    · unfold pseudoPairStepE
      rw [if_pos hd, if_neg (by simp)]
  · norm_num [ppRun, pseudoPairStepE, schedule_retry, dConn, INITIAL_BACKOFF,
      MAX_BACKOFF]

/-- Witness for C9: the per-step contract applied to the freshly connected
device. -/
theorem C9_witness :
    pseudoPairStepE true dConn =
      (schedule_retry dConn, some (min dConn.retry_backoff MAX_BACKOFF)) ∧
    (schedule_retry dConn).retry_backoff = dConn.retry_backoff * 2 :=
  ⟨(C9_retry_backoff.1 dConn rfl).1, (C9_retry_backoff.1 dConn rfl).2.2.1⟩

/-- C8: a payload shorter than 12 bytes or one whose bytes `[8..12]` differ
from `FE 7F FE 7F` is rejected by both variants without touching the sample
register or the stamp flag (shock.py has no explicit length test, but the
slice of a short payload is short and therefore differs from the
sentinel). -/
theorem C8_reject_noop (al : List (DPath × ℕ)) (p : DPath) (data : List ℕ)
    (r : Reg) (h : data.length < 12 ∨ (data.drop 8).take 4 ≠ sentinel) :
    update_temperaturesS al p data r = some r ∧
    update_temperaturesD al p data r = some r := by
  have hs : (data.drop 8).take 4 ≠ sentinel := by
    rcases h with h | h
    · intro he
      have hl : ((data.drop 8).take 4).length = 4 := by rw [he]; rfl
      rw [List.length_take, List.length_drop] at hl
      omega
    · exact h
  constructor
  · unfold update_temperaturesS
    rw [if_neg hs]
  · unfold update_temperaturesD
    rw [if_pos (Or.inr hs)]

/-- Witness for C8: the specification's scenario 3, a 12-byte payload whose
trailer is `00 00 00 00`, is dropped without register mutation. -/
theorem C8_witness :
    (([0, 0, 0, 0, 0, 0, 0, 0, 0, 0, 0, 0] : List ℕ).length < 12 ∨
      (([0, 0, 0, 0, 0, 0, 0, 0, 0, 0, 0, 0] : List ℕ).drop 8).take 4 ≠
        sentinel) ∧
    update_temperaturesS alloc0 "d1" [0, 0, 0, 0, 0, 0, 0, 0, 0, 0, 0, 0]
        initReg = some initReg ∧
    update_temperaturesD alloc0 "d1" [0, 0, 0, 0, 0, 0, 0, 0, 0, 0, 0, 0]
        initReg = some initReg :=
  ⟨Or.inr (by decide),
   C8_reject_noop alloc0 "d1" _ initReg (Or.inr (by decide))⟩

/-- C10: when a `Value` notification arrives for a known, connected device
that holds no slot, shock.py's `temperature_callback` allocates the slot
and returns before decoding: the sample register is unchanged by that very
notification, so the device's first delivered sample is discarded. -/
theorem C10_first_sample_discarded (p : DPath) (data : List ℕ)
    (al : AllocState) (r : Reg) (h1 : lookupA al.allocated p = none)
    (h2 : allocRaises p al = false) :
    temperature_callbackS true true p data al r = some (allocState p al, r) := by
  unfold temperature_callbackS
  rw [if_pos rfl, if_pos h1, if_pos rfl, if_neg (by rw [h2]; exact Bool.false_ne_true)]

/-- Witness for C10: the first notification of device `d1` against the
pristine allocator and register. -/
theorem C10_witness :
    lookupA initAlloc.allocated "d1" = none ∧
    allocRaises "d1" initAlloc = false ∧
    temperature_callbackS true true "d1" [0] initAlloc initReg =
      some (allocState "d1" initAlloc, initReg) :=
  ⟨rfl, by decide,
   C10_first_sample_discarded "d1" [0] initAlloc initReg rfl (by decide)⟩

/-- Deallocation is idempotent: after the first call the path no longer
holds a slot, so the second call is a no-op. -/
theorem deallocate_idem (p : DPath) (s : AllocState) :
    deallocate p (deallocate p s) = deallocate p s := by
  cases hl : lookupA s.allocated p with
  | none =>
    have h1 : deallocate p s = s := by
      unfold deallocate
      rw [hl]
    rw [h1, h1]
  | some off =>
    have h1 : deallocate p s =
        ⟨eraseA s.allocated p, insertA s.free (PKey.path p) off⟩ := by
      unfold deallocate
      rw [hl]
    rw [h1]
    unfold deallocate
    rw [show lookupA (AllocState.mk (eraseA s.allocated p)
          (insertA s.free (PKey.path p) off)).allocated p = none from
        lookupA_eraseA_self _ _]

/-- C7: teardown is idempotent in both variants.  Applying
`teardown_device(p)` twice leaves exactly the state of applying it once:
all the erasures are idempotent and the second `deallocate` finds no slot
under `p`; deadlock.py moreover returns early because the device record is
already gone. -/
theorem C7_teardown_idempotent :
    (∀ (p : DPath) (s : SysShock),
        teardownShock p (teardownShock p s) = teardownShock p s) ∧
    (∀ (p : DPath) (s : SysDead),
        teardownDead p (teardownDead p s) = teardownDead p s) := by
  constructor
  · intro p s
    unfold teardownShock
    rw [eraseA_idem, eraseA_idem, eraseA_idem, eraseA_idem, eraseA_idem,
      deallocate_idem]
  · intro p s
    cases hl : lookupA s.inkbirds p with
    | none =>
      have h1 : teardownDead p s = s := by
        unfold teardownDead
        rw [hl]
      rw [h1, h1]
    | some d =>
      have h1 : teardownDead p s =
          ⟨eraseA s.inkbirds p, eraseA s.temperatures p, eraseA s.commands p,
           eraseA s.batteries p, eraseA s.bindq p, deallocate p s.alloc⟩ := by
        unfold teardownDead
        rw [hl]
      rw [h1]
      unfold teardownDead
      rw [show lookupA (SysDead.mk (eraseA s.inkbirds p)
            (eraseA s.temperatures p) (eraseA s.commands p)
            (eraseA s.batteries p) (eraseA s.bindq p)
            (deallocate p s.alloc)).inkbirds p = none from
          lookupA_eraseA_self _ _]

/-- C1 (counterexample): a concrete state in which the claim's hypotheses
hold -- new value 10 against stored value 0 (a jump above 1.5 with both
readings below MAXTEMP) while `stamp` is clear -- yet shock.py's update,
whose large-jump branch ends in `continue`, leaves `thermocount[0]` at 3
and the global stamp flag false instead of resetting the count and raising
the stamp. -/
theorem C1_counterexample :
    F.jump (F.val ⟨10, 1⟩) (rC1.thermostamp.getD 0 F.nan) = true ∧
    F.ltb (F.val ⟨10, 1⟩) maxtempF = true ∧
    F.ltb (rC1.thermostamp.getD 0 F.nan) maxtempF = true ∧
    rC1.stamp = false ∧
    (stepChanS 0 (F.val ⟨10, 1⟩) rC1).stamp = false ∧
    (stepChanS 0 (F.val ⟨10, 1⟩) rC1).thermocount.getD 0 99 = 3 ∧
    (stepChanS 0 (F.val ⟨10, 1⟩) rC1).thermostamp.getD 0 F.nan =
      F.val ⟨10 * 1 + 0 * 1, 1 * 2⟩ := by decide

/-- C1 (amended): on a channel where the new value and the stored value
differ by more than 1.5, both lie below MAXTEMP, the stamp flag is clear,
and the redundancy rule does not fire (the count is 0, or at least MAXWAIT,
or the new value differs from the stored filter), deadlock.py's update sets
value and filter to the average `(v + vlast)/2`, resets the count and
raises the stamp; shock.py's update sets value and filter to the same
average but -- its large-jump branch ending in `continue` -- leaves the
count and the stamp untouched. -/
theorem C1_large_jump (c : ℕ) (v : F) (r : Reg)
    (hjump : F.jump v (r.thermostamp.getD c F.nan) = true)
    (hv : F.ltb v maxtempF = true)
    (hvl : F.ltb (r.thermostamp.getD c F.nan) maxtempF = true)
    (hstamp : r.stamp = false)
    (hnosup : r.thermocount.getD c 0 = 0 ∨ MAXWAIT ≤ r.thermocount.getD c 0 ∨
      F.beq v (r.thermofilter.getD c F.nan) = false) :
    stepChanD c v r = { r with
        thermostamp :=
          r.thermostamp.set c
            (F.half (F.add v (r.thermostamp.getD c F.nan))),
        thermofilter :=
          r.thermofilter.set c
            (F.half (F.add v (r.thermostamp.getD c F.nan))),
        thermocount := r.thermocount.set c 0,
        stamp := true } ∧
    stepChanS c v r = { r with
        thermostamp :=
          r.thermostamp.set c
            (F.half (F.add v (r.thermostamp.getD c F.nan))),
        thermofilter :=
          r.thermofilter.set c
            (F.half (F.add v (r.thermostamp.getD c F.nan))) } := by
  have hno : ¬(r.thermocount.getD c 0 ≠ 0 ∧ r.thermocount.getD c 0 < MAXWAIT ∧
      (F.beq v (r.thermostamp.getD c F.nan) ||
        F.beq v (r.thermofilter.getD c F.nan)) = true) := by
    have hb := F.beq_false_of_jump hjump
    rintro ⟨h1, h2, h3⟩
    rw [hb, Bool.false_or] at h3
    rcases hnosup with h4 | h4 | h4
    · exact h1 h4
    · omega
    · rw [h4] at h3
      exact Bool.false_ne_true h3
  have hg1 : F.gtb v maxtempF = false := F.gtb_val_false hv
  have hg2 : F.gtb (r.thermostamp.getD c F.nan) maxtempF = false :=
    F.gtb_val_false hvl
  constructor
  · unfold stepChanD
    dsimp only
    rw [if_neg hno, if_pos hjump, if_neg (by rw [hstamp]; exact Bool.false_ne_true)]
  · unfold stepChanS
    dsimp only
    rw [if_neg hno, if_pos hjump, if_neg (by rw [hg1, hg2]; simp)]

/-- Witness for C1: the amended statement applied to the concrete state of
the counterexample. -/
theorem C1_witness :
    stepChanD 0 (F.val ⟨10, 1⟩) rC1 = { rC1 with
        thermostamp :=
          rC1.thermostamp.set 0
            (F.half (F.add (F.val ⟨10, 1⟩) (rC1.thermostamp.getD 0 F.nan))),
        thermofilter :=
          rC1.thermofilter.set 0
            (F.half (F.add (F.val ⟨10, 1⟩) (rC1.thermostamp.getD 0 F.nan))),
        thermocount := rC1.thermocount.set 0 0,
        stamp := true } ∧
    stepChanS 0 (F.val ⟨10, 1⟩) rC1 = { rC1 with
        thermostamp :=
          rC1.thermostamp.set 0
            (F.half (F.add (F.val ⟨10, 1⟩) (rC1.thermostamp.getD 0 F.nan))),
        thermofilter :=
          rC1.thermofilter.set 0
            (F.half (F.add (F.val ⟨10, 1⟩) (rC1.thermostamp.getD 0 F.nan))) } :=
  C1_large_jump 0 (F.val ⟨10, 1⟩) rC1 (by decide) (by decide) (by decide)
    (by decide) (Or.inr (Or.inr (by decide)))

/-- C5 (counterexample): with all six slots taken, `allocate("d7")` neither
fails cleanly nor leaves the state unchanged: it records the sentinel
offset `1e9` for the path (and shock.py then raises `KeyError` from
`del free_offsets[None]`).  The "no capacity" refusal lives in
`interface_added_callback`, not in `allocate`. -/
theorem C5_counterexample :
    allocState "d7" sFull ≠ sFull ∧
    lookupA (allocState "d7" sFull).allocated "d7" = some (10 ^ 9) ∧
    allocRaises "d7" sFull = true := by decide

/-- C5 (amended): when the path has no remembered prior offset and
`free_offsets` holds at least one genuine offset (below the scan's `1e9`
start value), `allocate` assigns the smallest offset present in
`free_offsets`; when `free_offsets` is empty, `allocate` records the
sentinel `1e9` under the path -- changing the allocator state -- and in the
shock.py variant raises `KeyError` afterwards. -/
theorem C5_allocate :
    (∀ (p : DPath) (s : AllocState),
        lookupA s.free (PKey.path p) = none →
        (∃ e ∈ s.free, e.2 < 10 ^ 9) →
        ∃ m, lookupA (allocState p s).allocated p = some m ∧
          m ∈ s.free.map Prod.snd ∧ ∀ w ∈ s.free.map Prod.snd, m ≤ w) ∧
    (∀ (p : DPath) (al : List (DPath × ℕ)),
        allocState p ⟨al, []⟩ = ⟨insertA al p (10 ^ 9), []⟩ ∧
        allocRaises p ⟨al, []⟩ = true) := by
  constructor
  · intro p s hl ⟨e, he, hv⟩
    obtain ⟨e', he', hsc, hmin⟩ := scanMin_found s.free he hv
    refine ⟨e'.2, ?_, List.mem_map_of_mem Prod.snd he', fun w hw => ?_⟩
    · unfold allocState
      rw [hl, hsc]
      exact lookupA_insertA_self _ _ _
    · rcases List.mem_map.1 hw with ⟨f, hf, rfl⟩
      exact hmin f hf
  · intro p al
    exact ⟨rfl, rfl⟩

/-- Witness for C5: allocation for a fresh path from a state holding the
free offsets 8 and 4 picks the smallest, 4. -/
theorem C5_witness :
    ∃ m, lookupA (allocState "d2"
        ⟨[("d1", 0)], [(PKey.ofs 8, 8), (PKey.ofs 4, 4)]⟩).allocated "d2" =
          some m ∧
      m ∈ ([(PKey.ofs 8, 8), (PKey.ofs 4, 4)] : List (PKey × ℕ)).map Prod.snd ∧
      ∀ w ∈ ([(PKey.ofs 8, 8), (PKey.ofs 4, 4)] : List (PKey × ℕ)).map Prod.snd,
        m ≤ w :=
  C5_allocate.1 "d2" ⟨[("d1", 0)], [(PKey.ofs 8, 8), (PKey.ofs 4, 4)]⟩
    (by decide) ⟨(PKey.ofs 4, 4), by decide, by decide⟩

/-- Appending a fresh key keeps the key list duplicate-free. -/
theorem nodup_keys_append_single {κ ν : Type} [DecidableEq κ]
    {l : List (κ × ν)} {p : κ} (v : ν) (hn : (l.map Prod.fst).Nodup)
    (hp : p ∉ l.map Prod.fst) :
    (((l ++ [(p, v)]).map Prod.fst)).Nodup := by
  rw [List.map_append]
  rw [List.nodup_append]
  exact ⟨hn, List.nodup_singleton p, by simpa [List.disjoint_singleton] using hp⟩

/-- The strengthened allocator invariant holds initially. -/
theorem JInv_init : JInv initAlloc := by
  refine ⟨by simp [initAlloc], by decide, by simp [initAlloc], ?_⟩
  exact List.Perm.refl offsList

/-- The strengthened allocator invariant is preserved by `deallocate`. -/
theorem JInv_dealloc {s : AllocState} (h : JInv s) (p : DPath) :
    JInv (deallocate p s) := by
  obtain ⟨hn1, hn2, hdisj, hperm⟩ := h
  cases hl : lookupA s.allocated p with
  | none =>
    have h1 : deallocate p s = s := by
      unfold deallocate
      rw [hl]
    rw [h1]
    exact ⟨hn1, hn2, hdisj, hperm⟩
  | some off =>
    have hmem : p ∈ s.allocated.map Prod.fst := by
      by_contra hc
      rw [← lookupA_eq_none_iff] at hc
      rw [hl] at hc
      exact Option.noConfusion hc
    have hfree : PKey.path p ∉ s.free.map Prod.fst := hdisj p hmem
    have hins : insertA s.free (PKey.path p) off = s.free ++ [(PKey.path p, off)] :=
      insertA_of_lookup_none ((lookupA_eq_none_iff _ _).2 hfree) off
    have h1 : deallocate p s =
        ⟨eraseA s.allocated p, insertA s.free (PKey.path p) off⟩ := by
      unfold deallocate
      rw [hl]
    rw [h1]
    refine ⟨eraseA_nodup_keys hn1 p, ?_, ?_, ?_⟩
    · rw [hins]
      exact nodup_keys_append_single off hn2 hfree
    · intro q hq
      rw [mem_keys_eraseA] at hq
      rw [hins, List.map_append, List.mem_append]
      rintro (hq2 | hq2)
      · exact hdisj q hq.1 hq2
      · simp only [List.map_cons, List.map_nil, List.mem_singleton] at hq2
        exact hq.2 (by injection hq2)
    · have hpe := perm_values_eraseA hn1 hl
      have hfv : (insertA s.free (PKey.path p) off).map Prod.snd =
          s.free.map Prod.snd ++ [off] := by
        rw [hins, List.map_append]
        rfl
      show ((eraseA s.allocated p).map Prod.snd ++
          (insertA s.free (PKey.path p) off).map Prod.snd).Perm offsList
      rw [hfv]
      refine List.Perm.trans ?_ hperm
      refine List.Perm.trans
        (List.Perm.append_left _ List.perm_append_comm) ?_
      rw [← List.append_assoc]
      exact List.Perm.append_right _
        ((List.perm_append_singleton _ _).trans hpe.symm)

/-- The strengthened allocator invariant is preserved by `allocate` when the
free list is nonempty and the path holds no slot. -/
theorem JInv_alloc {s : AllocState} {p : DPath} (h : JInv s)
    (hf : s.free ≠ []) (hl : lookupA s.allocated p = none) :
    JInv (allocState p s) := by
  obtain ⟨hn1, hn2, hdisj, hperm⟩ := h
  have hpk : p ∉ s.allocated.map Prod.fst := (lookupA_eq_none_iff _ _).1 hl
  cases hlf : lookupA s.free (PKey.path p) with
  | some off =>
    have hins : insertA s.allocated p off = s.allocated ++ [(p, off)] :=
      insertA_of_lookup_none hl off
    have h1 : allocState p s =
        ⟨insertA s.allocated p off, eraseA s.free (PKey.path p)⟩ := by
      unfold allocState
      rw [hlf]
    rw [h1]
    refine ⟨?_, eraseA_nodup_keys hn2 _, ?_, ?_⟩
    · rw [hins]
      exact nodup_keys_append_single off hn1 hpk
    · intro q hq
      rw [hins, List.map_append, List.mem_append] at hq
      rw [mem_keys_eraseA]
      rintro ⟨hq2, hq3⟩
      rcases hq with hq | hq
      · exact hdisj q hq hq2
      · simp only [List.map_cons, List.map_nil, List.mem_singleton] at hq
        subst hq
        exact hq3 rfl
    · have hpe := perm_values_eraseA hn2 hlf
      have hav : (insertA s.allocated p off).map Prod.snd =
          s.allocated.map Prod.snd ++ [off] := by
        rw [hins, List.map_append]
        rfl
      show ((insertA s.allocated p off).map Prod.snd ++
          (eraseA s.free (PKey.path p)).map Prod.snd).Perm offsList
      rw [hav, List.append_assoc]
      refine List.Perm.trans ?_ hperm
      exact List.Perm.append_left _ hpe.symm
  | none =>
    obtain ⟨e, he⟩ : ∃ e, e ∈ s.free := by
      cases hfe : s.free with
      | nil => exact absurd hfe hf
      | cons e t => exact ⟨e, hfe ▸ List.mem_cons_self e t⟩
    have hv : e.2 < 10 ^ 9 := by
      have hm : e.2 ∈ offsList := by
        refine hperm.mem_iff.1 ?_
        exact List.mem_append.2 (Or.inr (List.mem_map_of_mem Prod.snd he))
      simp only [offsList, List.mem_cons, List.not_mem_nil, or_false] at hm
      rcases hm with h | h | h | h | h | h <;> omega
    obtain ⟨e', he', hsc, hmin⟩ := scanMin_found s.free he hv
    have hle : lookupA s.free e'.1 = some e'.2 := by
      have : (e'.1, e'.2) ∈ s.free := by
        rw [Prod.mk.eta]
        exact he'
      exact lookupA_of_mem_nodup hn2 this
    have hins : insertA s.allocated p e'.2 = s.allocated ++ [(p, e'.2)] :=
      insertA_of_lookup_none hl e'.2
    have h1 : allocState p s =
        ⟨insertA s.allocated p e'.2, eraseA s.free e'.1⟩ := by
      unfold allocState
      rw [hlf, hsc]
    rw [h1]
    have hppk : PKey.path p ∉ s.free.map Prod.fst :=
      (lookupA_eq_none_iff _ _).1 hlf
    refine ⟨?_, eraseA_nodup_keys hn2 _, ?_, ?_⟩
    · rw [hins]
      exact nodup_keys_append_single e'.2 hn1 hpk
    · intro q hq
      rw [hins, List.map_append, List.mem_append] at hq
      rw [mem_keys_eraseA]
      rintro ⟨hq2, hq3⟩
      rcases hq with hq | hq
      · exact hdisj q hq hq2
      · simp only [List.map_cons, List.map_nil, List.mem_singleton] at hq
        subst hq
        exact hppk hq2
    · have hpe := perm_values_eraseA hn2 hle
      have hav : (insertA s.allocated p e'.2).map Prod.snd =
          s.allocated.map Prod.snd ++ [e'.2] := by
        rw [hins, List.map_append]
        rfl
      show ((insertA s.allocated p e'.2).map Prod.snd ++
          (eraseA s.free e'.1).map Prod.snd).Perm offsList
      rw [hav, List.append_assoc]
      refine List.Perm.trans ?_ hperm
      exact List.Perm.append_left _ hpe.symm

/-- C4 (counterexample): the claimed invariant holds in the reachable state
where six devices hold all six slots, but is not preserved by the next
`allocate` call: `allocate("d7")` on the exhausted allocator records the
sentinel offset `1e9`, making the allocated offsets leave
`{0,4,8,12,16,20}` and pushing the map to seven entries. -/
theorem C4_counterexample :
    claimInvB sixAlloc = true ∧
    claimInvB (allocState "d7" sixAlloc) = false ∧
    (allocState "d7" sixAlloc).allocated.length = 7 := by decide

/-- C4 (amended): at every allocator state reachable when each `allocate`
call happens while `free_offsets` is nonempty and for a path holding no
slot (and `deallocate` at any time), the offsets of `allocated_offsets` and
`free_offsets` partition `{0,4,8,12,16,20}` and at most six slots are
allocated. -/
theorem C4_allocator_invariant (s : AllocState) (h : ReachG s) :
    (∀ x : ℕ, (x ∈ s.allocated.map Prod.snd ∨ x ∈ s.free.map Prod.snd) ↔
        x ∈ offsList) ∧
    (∀ x ∈ s.allocated.map Prod.snd, x ∉ s.free.map Prod.snd) ∧
    s.allocated.length ≤ 6 := by
  have hJ : JInv s := by
    induction h with
    | init => exact JInv_init
    | alloc hr hf hl ih => exact JInv_alloc ih hf hl
    | dealloc p hr ih => exact JInv_dealloc ih p
  obtain ⟨hn1, hn2, hdisj, hperm⟩ := hJ
  have hnod : (s.allocated.map Prod.snd ++ s.free.map Prod.snd).Nodup :=
    hperm.nodup_iff.2 (by decide)
  refine ⟨fun x => ?_, fun x hx => ?_, ?_⟩
  · rw [← List.mem_append]
    exact hperm.mem_iff
  · exact (List.nodup_append.1 hnod).2.2 hx
  · have hlen := hperm.length_eq
    rw [List.length_append, List.length_map, List.length_map] at hlen
    have : offsList.length = 6 := by decide
    omega

/-- Witness for C4: the invariant instantiated at the reachable state in
which device `d1` has taken the first slot. -/
theorem C4_witness :
    (∀ x : ℕ, (x ∈ (allocState "d1" initAlloc).allocated.map Prod.snd ∨
        x ∈ (allocState "d1" initAlloc).free.map Prod.snd) ↔ x ∈ offsList) ∧
    (∀ x ∈ (allocState "d1" initAlloc).allocated.map Prod.snd,
        x ∉ (allocState "d1" initAlloc).free.map Prod.snd) ∧
    (allocState "d1" initAlloc).allocated.length ≤ 6 :=
  C4_allocator_invariant (allocState "d1" initAlloc)
    (ReachG.alloc ReachG.init (by decide) (by decide))
